import Mathlib

/-!
Verification development for the BRETCON invoice-normalization pipeline
(`src/app.py`).  The pipeline ingests a table, drops the first column
(by its label, as `pandas.DataFrame.drop` does), detects date and
monetary columns from header text, rewrites cell values in the detected
columns, and serializes the result to CSV.

Tables are embedded as lists of named columns whose cells are raw
strings, rationals (for parsed numerics) or a null marker.  Python
string scanning is embedded over `List Char`; `pandas` library calls
(`to_datetime`, `to_numeric`, CSV rendering) are modelled by small
executable functions documented at their definitions.
-/

/-! ### Characters, digits and decimal strings -/

/-- Numeric value of a decimal digit character (models `int(c)` semantics
used implicitly by Python numeric/date scanning). -/
def charDigit (c : Char) : Nat := c.toNat - 48

/-- Decimal digit character for a value `d < 10`. -/
def digitChar10 (d : Nat) : Char := Char.ofNat (48 + d)

/-- Value of a big-endian decimal digit string. -/
def digitsVal (cs : List Char) : Nat := cs.foldl (fun a c => 10 * a + charDigit c) 0

/-- Big-endian decimal digits of `n`, computed with `fuel ≥ n` steps of
structural recursion (so that the kernel can evaluate it). -/
def natStrAux : Nat → Nat → List Char
  | 0, _ => []
  | fuel + 1, n => if n = 0 then [] else natStrAux fuel (n / 10) ++ [digitChar10 (n % 10)]

/-- Decimal string of a natural number, `0` included. -/
def natStrL (n : Nat) : List Char := if n = 0 then ['0'] else natStrAux n n

/-- Left-pad a digit string with zeros to width `w` (models `%0wd` in
`strftime`). -/
def padZ (w : Nat) (cs : List Char) : List Char := List.replicate (w - cs.length) '0' ++ cs

/-- Whitespace recognized by Python `str.strip`. -/
def isWS (c : Char) : Bool := c == ' ' || c == '\t' || c == '\n' || c == '\r'

/-- Model of Python `str.strip`: remove leading and trailing whitespace. -/
def trimL (cs : List Char) : List Char :=
  ((cs.dropWhile isWS).reverse.dropWhile isWS).reverse

/-- Does `p` occur at the start of `s`? (model of `str.startswith`). -/
def startsWithL : List Char → List Char → Bool
  | [], _ => true
  | _ :: _, [] => false
  | p :: ps, c :: cs => p == c && startsWithL ps cs

/-- Substring containment, the Python `in` operator on strings. -/
def substrL (p : List Char) : List Char → Bool
  | [] => p.isEmpty
  | c :: cs => startsWithL p (c :: cs) || substrL p cs

/-- Lower-cased character list of a string (Python `str.lower`). -/
def lowerL (s : String) : List Char := s.toList.map Char.toLower

/-- Split a character list on a separator character, the way Python
`str.split(sep)` and CPython `strptime` literal matching cut a string
at each separator occurrence. -/
def splitOnChar (sep : Char) : List Char → List (List Char)
  | [] => [[]]
  | c :: cs =>
    let r := splitOnChar sep cs
    if c = sep then [] :: r
    else
      match r with
      | [] => [[c]]
      | p :: ps => (c :: p) :: ps

/-! ### Calendar dates (`datetime.date`) -/

/-- A calendar date: the `ParsedDate` of the data model, backing
Python `datetime.date`. -/
structure PDate where
  year : Nat
  month : Nat
  day : Nat
deriving DecidableEq

/-- Gregorian leap-year rule used by `datetime.date`. -/
def isLeap (y : Nat) : Bool := y % 4 == 0 && (y % 100 != 0 || y % 400 == 0)

/-- Number of days in a month of a given year. -/
def daysInMonth (y m : Nat) : Nat :=
  if m = 1 ∨ m = 3 ∨ m = 5 ∨ m = 7 ∨ m = 8 ∨ m = 10 ∨ m = 12 then 31
  else if m = 4 ∨ m = 6 ∨ m = 9 ∨ m = 11 then 30
  else if isLeap y then 29 else 28

/-- Validity of a calendar date, with the year range of `datetime.date`.
The year cap `9999` is `datetime.MAXYEAR`. -/
def validDate (y m d : Nat) : Prop :=
  1 ≤ y ∧ y ≤ 9999 ∧ 1 ≤ m ∧ m ≤ 12 ∧ 1 ≤ d ∧ d ≤ daysInMonth y m

instance validDate.instDecidable (y m d : Nat) : Decidable (validDate y m d) := by
  unfold validDate; infer_instance

/-- Construct a date, failing exactly when `datetime.date(y, m, d)` raises. -/
def mkDate (y m d : Nat) : Option PDate :=
  if validDate y m d then some ⟨y, m, d⟩ else none

/-- A day or month field of `strptime`: one or two decimal digits
(the `%d` and `%m` patterns of CPython `_strptime`); range errors are
caught by `mkDate` afterwards, as in `datetime.date`. -/
def field2 (cs : List Char) : Option Nat :=
  if 1 ≤ cs.length ∧ cs.length ≤ 2 ∧ cs.all Char.isDigit then some (digitsVal cs) else none

/-- A year field of `strptime`: exactly four decimal digits (the `%Y`
pattern of CPython `_strptime`). -/
def field4 (cs : List Char) : Option Nat :=
  if cs.length = 4 ∧ cs.all Char.isDigit then some (digitsVal cs) else none

/-- Field order of the three-part date formats used by the source. -/
inductive FOrd where
  | dmy
  | ymd
  | mdy
deriving DecidableEq

/-- Model of `datetime.strptime(s, fmt).date()` for the six formats in
the source: the string must split on the separator into exactly three
all-digit fields (day/month 1–2 digits, year 4 digits) forming a valid
calendar date. -/
def parseWithFormat (sep : Char) (ord : FOrd) (cs : List Char) : Option PDate :=
  match splitOnChar sep cs with
  | [a, b, c] =>
    match ord with
    | .dmy => do mkDate (← field4 c) (← field2 b) (← field2 a)
    | .ymd => do mkDate (← field4 a) (← field2 b) (← field2 c)
    | .mdy => do mkDate (← field4 c) (← field2 a) (← field2 b)
  | _ => none

/-- The ordered strict format list of `parse_date_value`:
`%d/%m/%Y`, `%d-%m-%Y`, `%Y-%m-%d`, `%m/%d/%Y`, `%Y/%m/%d`, `%d.%m.%Y`. -/
def strictFormats : List (Char × FOrd) :=
  [('/', FOrd.dmy), ('-', FOrd.dmy), ('-', FOrd.ymd),
   ('/', FOrd.mdy), ('/', FOrd.ymd), ('.', FOrd.dmy)]

/-- First defined value in a list of options (models trying parsers in
order, returning on first success). -/
def firstSome {α : Type} : List (Option α) → Option α
  | [] => none
  | some a :: _ => some a
  | none :: rest => firstSome rest

/-- Try the six strict formats in order. -/
def parseStrictL (cs : List Char) : Option PDate :=
  firstSome (strictFormats.map (fun f => parseWithFormat f.1 f.2 cs))

/-- Model of `pd.to_datetime(s, dayfirst=True, errors="coerce")`,
restricted to purely numeric three-field dates with `/`, `-` or `.`
separators and a four-digit year in last position; any other input
(e.g. free text) coerces to `NaT`, i.e. `none`.  With `dayfirst`, the
first field is preferred as the day; if that is not a valid calendar
date the day and month are swapped, as `dateutil` does. -/
def tryDayfirst (sep : Char) (cs : List Char) : Option PDate :=
  match splitOnChar sep cs with
  | [a, b, c] => do
      let x ← field2 a
      let y ← field2 b
      let yr ← field4 c
      (mkDate yr y x).orElse (fun _ => mkDate yr x y)
  | _ => none

/-- Permissive fallback parse of `parse_date_value` (see `tryDayfirst`). -/
def pdToDatetimeDF (cs : List Char) : Option PDate :=
  firstSome [tryDayfirst '/' cs, tryDayfirst '-' cs, tryDayfirst '.' cs]

/-- Render a date as `strftime("%d/%m/%Y")`: zero-padded day and month,
four-digit year. -/
def formatDMY (d : PDate) : String :=
  ⟨padZ 2 (natStrL d.day) ++ '/' :: (padZ 2 (natStrL d.month) ++ '/' :: padZ 4 (natStrL d.year))⟩

/-! ### Cells, columns, tables -/

/-- A cell value: raw string, parsed number, or the null marker
(`None`/`NaN`/`pd.NA`, all of which satisfy `pd.isna`). -/
inductive Cell where
  | null
  | str (s : String)
  | num (q : ℚ)
deriving DecidableEq

/-- String form of a cell (Python `str(x)`).  The pipeline only ever
stringifies non-null cells, and every claim evaluates string cells, so
the rendering of the other constructors is only required to be some
fixed non-blank text. -/
def cellStr : Cell → String
  | .null => "None"
  | .str s => s
  | .num q => toString q

/-- A named column of cells. -/
structure Column where
  name : String
  cells : List Cell
deriving DecidableEq

/-- A table: ordered sequence of named columns. -/
abbrev Table := List Column

/-- Header list of a table (`df.columns`). -/
def headersOf (t : Table) : List String := t.map Column.name

/-- Row count of a table (`len(df)`: the index length, i.e. the length
of its columns, read off the first column). -/
def nRows (t : Table) : Nat :=
  match t with
  | [] => 0
  | c :: _ => c.cells.length

/-- Model of `df.empty`: true when either axis has length zero. -/
def tableIsEmpty (t : Table) : Bool := t.length == 0 || nRows t == 0

/-! ### Numeric parsing (`to_numeric` in `process_dataframe`) -/

/-- Remove every comma and space character:
`s.replace(",", "").replace(" ", "")`. -/
def stripSep (cs : List Char) : List Char := cs.filter (fun c => !(c == ',' || c == ' '))

/-- Accounting-negative rewrite: if the string starts with `(` and ends
with `)`, replace it by `-` followed by the inner text (`"-" + s[1:-1]`). -/
def parenFix (cs : List Char) : List Char :=
  if cs.head? = some '(' ∧ cs.getLast? = some ')' then '-' :: (cs.drop 1).dropLast else cs

/-- Unsigned decimal literal: digits with an optional single point,
at least one digit overall. -/
def parseUnsignedDec (cs : List Char) : Option ℚ :=
  match splitOnChar '.' cs with
  | [i] => if 1 ≤ i.length ∧ i.all Char.isDigit then some (digitsVal i) else none
  | [i, f] =>
    if 1 ≤ i.length + f.length ∧ i.all Char.isDigit ∧ f.all Char.isDigit then
      some ((digitsVal i : ℚ) + (digitsVal f : ℚ) / (10 : ℚ) ^ f.length)
    else none
  | _ => none

/-- Model of Python `float(s)` restricted to plain decimal literals with
an optional sign (no exponents, `inf`, `nan` or underscores — none of
which survive this pipeline's cleaning on the claims' inputs).  The
secondary `pd.to_numeric(s, errors="coerce")` coercion in the source
parses the same decimal literals and coerces everything else to `NaN`,
which the later `astype("Float64")` turns into the null marker, so both
conversion attempts together are modelled by this single function. -/
def pyFloatL (cs : List Char) : Option ℚ :=
  match cs with
  | '-' :: rest => (parseUnsignedDec rest).map (fun q => -q)
  | '+' :: rest => parseUnsignedDec rest
  | _ => parseUnsignedDec cs

/-- The `to_numeric` closure of `process_dataframe`: null and blank
cells give the null marker; otherwise strip separators, rewrite the
accounting-negative form and convert. -/
def to_numeric (x : Cell) : Option ℚ :=
  if x = Cell.null then none
  else
    let cs := (cellStr x).toList
    if trimL cs = [] then none
    else pyFloatL (parenFix (stripSep cs))

/-- Round-half-to-even to an integer (the rounding of `Series.round`). -/
def rhe (q : ℚ) : ℤ :=
  let f := ⌊q⌋
  let r := q - (f : ℚ)
  if r < 1 / 2 then f
  else if 1 / 2 < r then f + 1
  else if f % 2 = 0 then f else f + 1

/-- Round to two decimal places (`Series.round(2)`). -/
def round2 (q : ℚ) : ℚ := (rhe (q * 100) : ℚ) / 100

/-- Full per-cell effect of the monetary pass: parse, keep nulls null
(`astype("Float64")` maps `NaN` to `pd.NA`), round to 2 decimals. -/
def moneyTransform (x : Cell) : Cell :=
  match to_numeric x with
  | none => Cell.null
  | some q => Cell.num (round2 q)

/-! ### Date parsing (`parse_date_value`) -/

/-- The source's `parse_date_value`: null stays null, otherwise trim and
try the six strict formats in order, then the permissive day-first
parse; `pd.NaT` is modelled by `none`. -/
def parse_date_value (x : Cell) : Option PDate :=
  if x = Cell.null then none
  else
    let cs := trimL (cellStr x).toList
    match parseStrictL cs with
    | some d => some d
    | none => pdToDatetimeDF cs

/-- Full per-cell effect of the date pass: format hits as `DD/MM/YYYY`,
render misses as the empty string. -/
def dateTransform (x : Cell) : Cell :=
  match parse_date_value x with
  | none => Cell.str ""
  | some d => Cell.str (formatDMY d)

/-! ### Role detection -/

/-- Primary date predicate: the lower-cased header contains the
substring of the four letters d-a-t-e. -/
def dateMatch (c : String) : Bool := substrL ("date".toList) (lowerL c)

/-- Date-column selection of `process_dataframe`: primary filter on
`dateMatch`; if it is empty, a fallback filter keeping headers that
contain d-o-c or i-n-v-o-i-c-e and also satisfy `dateMatch`. -/
def dateColsOf (hs : List String) : List String :=
  let d := hs.filter dateMatch
  if d.isEmpty then
    hs.filter (fun c =>
      (substrL ("doc".toList) (lowerL c) || substrL ("invoice".toList) (lowerL c)) && dateMatch c)
  else d

/-- The monetary keyword list of `process_dataframe`, line 73. -/
def moneyKeywords : List String :=
  ["balance", "amount", "value", "amt", "debit", "credit", "total"]

/-- Monetary predicate: the lower-cased header contains a keyword. -/
def moneyMatch (c : String) : Bool := moneyKeywords.any (fun k => substrL k.toList (lowerL c))

/-- Monetary-column selection: keyword filter, else the last column when
the table still has at least one column (`df.shape[1] >= 1`). -/
def balanceColsOf (hs : List String) : List String :=
  let b := hs.filter moneyMatch
  if b.isEmpty then
    match hs.getLast? with
    | some c => [c]
    | none => []
  else b

/-! ### The pipeline (`process_dataframe`, upload handler, export) -/

/-- Column removal of step 1: `df.drop(df.columns[0], axis=1)` drops by
label, removing every column whose name equals the first column's name. -/
def dropFirstByLabel (t : Table) : Table :=
  match t with
  | [] => []
  | c :: _ => t.filter (fun col => col.name != c.name)

/-- Date pass of step 2: rewrite the cells of every column whose name
was detected as a date column (`df[col] = ...` assigns by name). -/
def dateStage (t : Table) : Table :=
  let d := dateColsOf (headersOf t)
  t.map (fun c => if c.name ∈ d then ⟨c.name, c.cells.map dateTransform⟩ else c)

/-- Monetary pass of step 3, with the detection run on the headers left
after the date pass, exactly as in the source. -/
def moneyStage (t : Table) : Table :=
  let b := balanceColsOf (headersOf t)
  t.map (fun c => if c.name ∈ b then ⟨c.name, c.cells.map moneyTransform⟩ else c)

/-- Errors surfaced by the pipeline and its caller.
`insufficientColumns` is the spec's `InsufficientColumnsError` (the
`ValueError` of line 52); `emptyInput` is its `EmptyInputError`. -/
inductive ProcErr where
  | insufficientColumns
  | emptyInput
deriving DecidableEq

/-- The pipeline `process_dataframe`: defensive column-count check,
then shift, date pass and monetary pass. -/
def process (t : Table) : Except ProcErr Table :=
  if t.length < 2 then .error .insufficientColumns
  else .ok (moneyStage (dateStage (dropFirstByLabel t)))

/-- The upload handler around the pipeline (lines 130–139): friendly
pre-checks for emptiness and column count before `process_dataframe`
is invoked. -/
def handleUpload (t : Table) : Except ProcErr Table :=
  if tableIsEmpty t then .error .emptyInput
  else if t.length < 2 then .error .insufficientColumns
  else process t

/-- Render one rounded amount with `float_format="%.2f"`. -/
def fmt2 (q : ℚ) : String :=
  let k := rhe (q * 100)
  let a := k.natAbs
  let s := natStrL (a / 100) ++ '.' :: padZ 2 (natStrL (a % 100))
  ⟨if k < 0 then '-' :: s else s⟩

/-- Per-cell CSV rendering of `get_csv_bytes` (`to_csv` with
`float_format="%.2f"`): nulls render as the empty cell, strings as
themselves, numbers with exactly two decimals. -/
def renderCell : Cell → String
  | .null => ""
  | .str s => s
  | .num q => fmt2 q

/-- Space stripping as described by the specification's date fallback
("lower-case the header, strip spaces").  This definition follows the
spec's words, for comparison against the code's fallback, which strips
nothing. -/
def specStripSpaces (cs : List Char) : List Char := cs.filter (fun c => !(c == ' '))

/-- Concrete four-column invoice table: one date column, one
unclassified note column, one monetary column (blank cell). -/
def noteTable : Table :=
  [⟨"Name", [Cell.str ("a")]⟩, ⟨"InvoiceDate", [Cell.str ("1/2/2025")]⟩,
   ⟨"Note", [Cell.str ("hi")]⟩, ⟨"Balance", [Cell.str ("")]⟩]

/-- Concrete three-column invoice table whose date column holds one
unparseable cell and one well-formed sibling. -/
def mixedDateTable : Table :=
  [⟨"Name", [Cell.str ("Acme"), Cell.str ("Beta")]⟩,
   ⟨"InvoiceDate", [Cell.str ("not-a-date"), Cell.str ("15/09/2025")]⟩,
   ⟨"Balance", [Cell.str (""), Cell.str ("")]⟩]

/-! ### Digit-string lemmas -/

theorem charDigit_digitChar10 (d : Nat) (h : d < 10) : charDigit (digitChar10 d) = d := by
  interval_cases d <;> decide

theorem isDigit_digitChar10 (d : Nat) (h : d < 10) : (digitChar10 d).isDigit = true := by
  interval_cases d <;> decide

theorem digitsVal_concat (xs : List Char) (c : Char) :
    digitsVal (xs ++ [c]) = 10 * digitsVal xs + charDigit c := by
  simp [digitsVal, List.foldl_append]

theorem natStrAux_val : ∀ fuel n, n ≤ fuel → digitsVal (natStrAux fuel n) = n
  | 0, n, h => by
    have hn : n = 0 := Nat.le_zero.mp h
    simp [natStrAux, hn, digitsVal]
  | fuel + 1, n, h => by
    by_cases hn : n = 0
    · simp [natStrAux, hn, digitsVal]
    · have hd : n / 10 < n := Nat.div_lt_self (Nat.pos_of_ne_zero hn) (by norm_num)
      have ih := natStrAux_val fuel (n / 10) (by omega)
      have hc := charDigit_digitChar10 (n % 10) (Nat.mod_lt n (by norm_num))
      simp only [natStrAux, hn, if_false]
      rw [digitsVal_concat, ih, hc]
      omega

theorem natStrAux_digits : ∀ fuel n, ∀ c ∈ natStrAux fuel n, c.isDigit = true
  | 0, _, c, hc => by simp [natStrAux] at hc
  | fuel + 1, n, c, hc => by
    by_cases hn : n = 0
    · simp [natStrAux, hn] at hc
    · simp only [natStrAux, hn, if_false, List.mem_append, List.mem_singleton] at hc
      rcases hc with hc | hc
      · exact natStrAux_digits fuel (n / 10) c hc
      · rw [hc]; exact isDigit_digitChar10 _ (Nat.mod_lt n (by norm_num))

theorem natStrAux_len : ∀ fuel n k, n < 10 ^ k → (natStrAux fuel n).length ≤ k
  | 0, _, k, _ => by simp [natStrAux]
  | fuel + 1, n, k, h => by
    by_cases hn : n = 0
    · simp [natStrAux, hn]
    · match k with
      | 0 => exact absurd h (by simp; omega)
      | k' + 1 =>
        have hdiv : n / 10 < 10 ^ k' := by
          rw [Nat.div_lt_iff_lt_mul (by norm_num)]
          calc n < 10 ^ (k' + 1) := h
            _ = 10 ^ k' * 10 := by ring
        have ih := natStrAux_len fuel (n / 10) k' hdiv
        simp only [natStrAux, hn, if_false, List.length_append, List.length_singleton]
        omega

theorem digitsVal_natStrL (n : Nat) : digitsVal (natStrL n) = n := by
  by_cases hn : n = 0
  · simp [natStrL, hn]; decide
  · simp only [natStrL, hn, if_false]
    exact natStrAux_val n n le_rfl

theorem natStrL_digits (n : Nat) : ∀ c ∈ natStrL n, c.isDigit = true := by
  by_cases hn : n = 0
  · rw [hn]; decide
  · simp only [natStrL, hn, if_false]
    exact natStrAux_digits n n

theorem natStrL_len_le (n k : Nat) (h : n < 10 ^ k) (hk : 1 ≤ k) : (natStrL n).length ≤ k := by
  by_cases hn : n = 0
  · simp [natStrL, hn]; omega
  · simp only [natStrL, hn, if_false]
    exact natStrAux_len n n k h

theorem foldl_zeros (m : Nat) :
    List.foldl (fun a c => 10 * a + charDigit c) 0 (List.replicate m '0') = 0 := by
  induction m with
  | zero => rfl
  | succ m ih => simpa [List.replicate_succ, charDigit] using ih

theorem digitsVal_padZ (w : Nat) (cs : List Char) : digitsVal (padZ w cs) = digitsVal cs := by
  unfold padZ digitsVal
  rw [List.foldl_append, foldl_zeros]

theorem padZ_len (w : Nat) (cs : List Char) (h : cs.length ≤ w) : (padZ w cs).length = w := by
  simp [padZ]; omega

theorem padZ_digits (w : Nat) (cs : List Char) (h : ∀ c ∈ cs, c.isDigit = true) :
    ∀ c ∈ padZ w cs, c.isDigit = true := by
  intro c hc
  rcases List.mem_append.mp hc with hc | hc
  · rcases List.mem_replicate.mp hc with ⟨_, rfl⟩; decide
  · exact h c hc

theorem digit_ne_slash (c : Char) (h : c.isDigit = true) : c ≠ '/' := by
  rintro rfl; simp [Char.isDigit] at h

/-! ### Splitting lemmas -/

theorem splitOnChar_sepFree (sep : Char) :
    ∀ l : List Char, (∀ c ∈ l, c ≠ sep) → splitOnChar sep l = [l]
  | [], _ => rfl
  | c :: cs, h => by
    have hc : ¬(c = sep) := h c (List.mem_cons_self c cs)
    have ih := splitOnChar_sepFree sep cs (fun x hx => h x (List.mem_cons_of_mem c hx))
    simp only [splitOnChar]
    rw [if_neg hc, ih]

theorem splitOnChar_append (sep : Char) :
    ∀ (a rest : List Char), (∀ c ∈ a, c ≠ sep) →
      splitOnChar sep (a ++ sep :: rest) = a :: splitOnChar sep rest
  | [], rest, _ => by simp [splitOnChar]
  | c :: a', rest, h => by
    have hc : ¬(c = sep) := h c (List.mem_cons_self c a')
    have ih := splitOnChar_append sep a' rest (fun x hx => h x (List.mem_cons_of_mem c hx))
    simp only [List.cons_append, splitOnChar, List.append_eq]
    rw [if_neg hc, ih]

/-! ### Field-level round-trip lemmas -/

theorem field2_pad (n : Nat) (h : n < 100) : field2 (padZ 2 (natStrL n)) = some n := by
  have hl2 : (natStrL n).length ≤ 2 := natStrL_len_le n 2 (by simpa using h) (by norm_num)
  have hp2 : (padZ 2 (natStrL n)).length = 2 := padZ_len 2 _ hl2
  have hdig : (padZ 2 (natStrL n)).all Char.isDigit = true :=
    List.all_eq_true.mpr (padZ_digits 2 _ (natStrL_digits n))
  unfold field2
  rw [if_pos ⟨by omega, by omega, hdig⟩, digitsVal_padZ, digitsVal_natStrL]

theorem field4_pad (n : Nat) (h : n < 10000) : field4 (padZ 4 (natStrL n)) = some n := by
  have hl4 : (natStrL n).length ≤ 4 := natStrL_len_le n 4 (by simpa using h) (by norm_num)
  have hp4 : (padZ 4 (natStrL n)).length = 4 := padZ_len 4 _ hl4
  have hdig : (padZ 4 (natStrL n)).all Char.isDigit = true :=
    List.all_eq_true.mpr (padZ_digits 4 _ (natStrL_digits n))
  unfold field4
  rw [if_pos ⟨hp4, hdig⟩, digitsVal_padZ, digitsVal_natStrL]

theorem daysInMonth_le (y m : Nat) : daysInMonth y m ≤ 31 := by
  unfold daysInMonth; split_ifs <;> omega

/-- C9: formatting a ParsedDate as `DD/MM/YYYY` (zero-padded day and month,
4-digit year) and re-parsing the resulting string with the strict
`DD/MM/YYYY` format yields the identical date. -/
theorem c9_date_roundtrip (d : PDate) (hv : validDate d.year d.month d.day) :
    parseWithFormat '/' FOrd.dmy (formatDMY d).toList = some d := by
  obtain ⟨hy1, hy2, hm1, hm2, hd1, hd2⟩ := hv
  have hday : d.day < 100 := by have := daysInMonth_le d.year d.month; omega
  have hmon : d.month < 100 := by omega
  have hyear : d.year < 10000 := by omega
  have hnd : ∀ c ∈ padZ 2 (natStrL d.day), c ≠ '/' :=
    fun c hc => digit_ne_slash c (padZ_digits 2 _ (natStrL_digits d.day) c hc)
  have hnm : ∀ c ∈ padZ 2 (natStrL d.month), c ≠ '/' :=
    fun c hc => digit_ne_slash c (padZ_digits 2 _ (natStrL_digits d.month) c hc)
  have hny : ∀ c ∈ padZ 4 (natStrL d.year), c ≠ '/' :=
    fun c hc => digit_ne_slash c (padZ_digits 4 _ (natStrL_digits d.year) c hc)
  have hToList : (formatDMY d).toList
      = padZ 2 (natStrL d.day) ++ '/' ::
          (padZ 2 (natStrL d.month) ++ '/' :: padZ 4 (natStrL d.year)) := rfl
  have hsplit : splitOnChar '/' (formatDMY d).toList
      = [padZ 2 (natStrL d.day), padZ 2 (natStrL d.month), padZ 4 (natStrL d.year)] := by
    rw [hToList, splitOnChar_append _ _ _ hnd, splitOnChar_append _ _ _ hnm,
        splitOnChar_sepFree _ _ hny]
  unfold parseWithFormat
  rw [hsplit]
  rw [show (([padZ 2 (natStrL d.day), padZ 2 (natStrL d.month), padZ 4 (natStrL d.year)] :
      List (List Char))) = [padZ 2 (natStrL d.day), padZ 2 (natStrL d.month),
      padZ 4 (natStrL d.year)] from rfl]
  simp only [field2_pad d.day hday, field2_pad d.month hmon, field4_pad d.year hyear,
    Option.bind_eq_bind, Option.some_bind]
  unfold mkDate
  rw [if_pos ⟨hy1, hy2, hm1, hm2, hd1, hd2⟩]

/-! ### Pipeline-stage lemmas -/

theorem headersOf_dateStage (t : Table) : headersOf (dateStage t) = headersOf t := by
  simp only [dateStage, headersOf, List.map_map]
  apply List.map_congr_left
  intro c _
  by_cases h : c.name ∈ dateColsOf (t.map Column.name) <;> simp [Function.comp, h]

theorem headersOf_moneyStage (t : Table) : headersOf (moneyStage t) = headersOf t := by
  simp only [moneyStage, headersOf, List.map_map]
  apply List.map_congr_left
  intro c _
  by_cases h : c.name ∈ balanceColsOf (t.map Column.name) <;> simp [Function.comp, h]

theorem process_eq_ok (t out : Table) (hp : process t = .ok out) :
    2 ≤ t.length ∧ out = moneyStage (dateStage (dropFirstByLabel t)) := by
  unfold process at hp
  split at hp
  · simp at hp
  · rename_i h
    exact ⟨by omega, (Except.ok.inj hp).symm⟩

theorem dateStage_getElem (t : Table) (j : Nat) :
    (dateStage t)[j]? = t[j]?.map (fun c =>
      if c.name ∈ dateColsOf (headersOf t) then ⟨c.name, c.cells.map dateTransform⟩ else c) := by
  simp only [dateStage, headersOf, List.getElem?_map]

theorem moneyStage_getElem (t : Table) (j : Nat) :
    (moneyStage t)[j]? = t[j]?.map (fun c =>
      if c.name ∈ balanceColsOf (headersOf t) then ⟨c.name, c.cells.map moneyTransform⟩ else c) := by
  simp only [moneyStage, headersOf, List.getElem?_map]

/-- C10: every column of the pipeline output that the Role Detector
classified neither Date nor Monetary is identical — name and every
cell — to the corresponding column of the shifted input; only Date-
and Monetary-classified columns are rewritten. -/
theorem c10_unclassified_untouched (t out : Table) (hp : process t = .ok out)
    (j : Nat) (col : Column) (hj : out[j]? = some col)
    (hd : col.name ∉ dateColsOf (headersOf (dropFirstByLabel t)))
    (hb : col.name ∉ balanceColsOf (headersOf (dropFirstByLabel t))) :
    (dropFirstByLabel t)[j]? = some col := by
  have hout := (process_eq_ok t out hp).2
  subst hout
  rw [moneyStage_getElem, headersOf_dateStage, dateStage_getElem] at hj
  rcases Option.map_eq_some'.mp hj with ⟨c1, hc1, hgc1⟩
  rcases Option.map_eq_some'.mp hc1 with ⟨c0, hc0, hfc0⟩
  have hname1 : col.name = c1.name := by
    rw [← hgc1]
    by_cases h : c1.name ∈ balanceColsOf (headersOf (dropFirstByLabel t)) <;> simp [h]
  have hname0 : c1.name = c0.name := by
    rw [← hfc0]
    by_cases h : c0.name ∈ dateColsOf (headersOf (dropFirstByLabel t)) <;> simp [h]
  have hcol1 : c1 = col := by
    rw [← hgc1, if_neg (by rw [← hname1]; exact hb)]
  have hcol0 : c0 = c1 := by
    rw [← hfc0, if_neg (by rw [← hname0, ← hname1]; exact hd)]
  rw [hc0, hcol0, hcol1]

/-- C8: the date pass is applied independently to each cell of a
Date-classified column (the output column is the cell-wise map of the
date transformer over the shifted input column); a cell whose text
matches no strict format and fails the permissive day-first parse
yields null and renders as the empty string, while sibling cells in the
same column still parse and format normally; the pipeline never fails
on cell contents (it returns a table for every input with at least two
columns). -/
theorem c8_date_cellwise (t out : Table) (hp : process t = .ok out)
    (j : Nat) (col : Column) (hj : out[j]? = some col)
    (hd : col.name ∈ dateColsOf (headersOf (dropFirstByLabel t)))
    (hb : col.name ∉ balanceColsOf (headersOf (dropFirstByLabel t))) :
    (∃ c0, (dropFirstByLabel t)[j]? = some c0 ∧ c0.name = col.name ∧
        col.cells = c0.cells.map dateTransform) ∧
      dateTransform (Cell.str ("not-a-date")) = Cell.str ("") ∧
      dateTransform (Cell.str ("15/09/2025")) = Cell.str ("15/09/2025") ∧
      (∀ u : Table, 2 ≤ u.length → ∃ o, process u = .ok o) := by
  refine ⟨?_, by decide, by decide, fun u hu => ⟨_, by unfold process; rw [if_neg (by omega)]⟩⟩
  have hout := (process_eq_ok t out hp).2
  subst hout
  rw [moneyStage_getElem, headersOf_dateStage, dateStage_getElem] at hj
  rcases Option.map_eq_some'.mp hj with ⟨c1, hc1, hgc1⟩
  rcases Option.map_eq_some'.mp hc1 with ⟨c0, hc0, hfc0⟩
  have hname1 : col.name = c1.name := by
    rw [← hgc1]
    by_cases h : c1.name ∈ balanceColsOf (headersOf (dropFirstByLabel t)) <;> simp [h]
  have hname0 : c1.name = c0.name := by
    rw [← hfc0]
    by_cases h : c0.name ∈ dateColsOf (headersOf (dropFirstByLabel t)) <;> simp [h]
  have hcol1 : c1 = col := by
    rw [← hgc1, if_neg (by rw [← hname1]; exact hb)]
  have hcol0 : c1 = ⟨c0.name, c0.cells.map dateTransform⟩ := by
    rw [← hfc0, if_pos (by rw [← hname0, ← hname1]; exact hd)]
  refine ⟨c0, hc0, ?_, ?_⟩
  · exact (hname1.trans hname0).symm
  · rw [← hcol1, hcol0]

/-! ### Claim C1: the column shift -/

/-- C1 fails as stated: on a 2-column, 1-row table whose two columns both
carry the name "A", the shift — a label-based `drop` of the first
column's name — removes both columns, leaving 0 columns rather than the
claimed 1. -/
theorem c1_counterexample :
    2 ≤ ([⟨"A", [Cell.str ("x")]⟩, ⟨"A", [Cell.str ("y")]⟩] : Table).length ∧
      1 ≤ nRows [⟨"A", [Cell.str ("x")]⟩, ⟨"A", [Cell.str ("y")]⟩] ∧
      (dropFirstByLabel [⟨"A", [Cell.str ("x")]⟩, ⟨"A", [Cell.str ("y")]⟩]).length ≠
        ([⟨"A", [Cell.str ("x")]⟩, ⟨"A", [Cell.str ("y")]⟩] : Table).length - 1 := by
  decide

/-- C1 (amended): for every table with at least 2 columns and at least 1
row in which no other column shares the first column's name, the Column
Shifter removes exactly the column at position 0: the output is the tail
of the input, it has (input column count − 1) columns, output column i
equals input column i+1 with all cell values unchanged, and every
column's length — hence the row count — is unchanged. -/
theorem c1_shift_amended (c0 : Column) (rest : List Column)
    (h2 : 2 ≤ (c0 :: rest : Table).length) (hr : 1 ≤ nRows (c0 :: rest))
    (hname : ∀ c ∈ rest, c.name ≠ c0.name) :
    dropFirstByLabel (c0 :: rest) = rest ∧
      (dropFirstByLabel (c0 :: rest)).length = (c0 :: rest : Table).length - 1 ∧
      (∀ i : Nat, (dropFirstByLabel (c0 :: rest))[i]? = (c0 :: rest : Table)[i + 1]?) ∧
      (∀ r : Nat, (∀ c ∈ (c0 :: rest : Table), c.cells.length = r) →
        ∀ c ∈ dropFirstByLabel (c0 :: rest), c.cells.length = r) := by
  have hdrop : dropFirstByLabel (c0 :: rest) = rest := by
    show List.filter (fun col => col.name != c0.name) (c0 :: rest) = rest
    rw [List.filter_cons]
    have hc0 : (c0.name != c0.name) = false := by simp
    rw [hc0]
    simp only [Bool.false_eq_true, if_false]
    exact List.filter_eq_self.mpr (fun c hc => by simp [hname c hc])
  refine ⟨hdrop, ?_, ?_, ?_⟩
  · rw [hdrop]; rfl
  · intro i; rw [hdrop, List.getElem?_cons_succ]
  · intro r hall c hc
    rw [hdrop] at hc
    exact hall c (List.mem_cons_of_mem c0 hc)

/-- Witness for C1 (amended) at a concrete 2-column, 1-row table with
distinct names. -/
theorem c1_shift_amended_witness :
    dropFirstByLabel [⟨"A", [Cell.str ("x")]⟩, ⟨"B", [Cell.str ("y")]⟩]
      = [⟨"B", [Cell.str ("y")]⟩] :=
  (c1_shift_amended ⟨"A", [Cell.str ("x")]⟩ [⟨"B", [Cell.str ("y")]⟩]
    (by decide) (by decide) (by decide)).1

/-! ### Claim C2: the insufficient-columns check -/

/-- C2: for every table with fewer than 2 columns the pipeline fails with
`InsufficientColumnsError` (the check precedes every transformation
stage), the caller's pre-check independently rejects such a table before
the pipeline is ever invoked (reporting emptiness first when there is no
data at all), and no processed table is ever produced. -/
theorem c2_insufficient_columns (t : Table) (h : t.length < 2) :
    process t = .error .insufficientColumns ∧
      (tableIsEmpty t = false → handleUpload t = .error .insufficientColumns) ∧
      (∀ out, handleUpload t ≠ .ok out) := by
  have hproc : process t = .error .insufficientColumns := by
    unfold process
    rw [if_pos h]
  refine ⟨hproc, ?_, ?_⟩
  · intro he
    unfold handleUpload
    simp [he, h]
  · intro out
    unfold handleUpload
    by_cases he : tableIsEmpty t
    · simp [he]
    · simp [he, h]

/-- Witness for C2 at a concrete 1-column table with data. -/
theorem c2_insufficient_columns_witness :
    process [⟨"Only", [Cell.str ("x")]⟩] = .error .insufficientColumns ∧
      handleUpload [⟨"Only", [Cell.str ("x")]⟩] = .error .insufficientColumns :=
  ⟨(c2_insufficient_columns [⟨"Only", [Cell.str ("x")]⟩] (by decide)).1,
   (c2_insufficient_columns [⟨"Only", [Cell.str ("x")]⟩] (by decide)).2.1 (by decide)⟩

/-! ### Claim C3: the monetary keyword list -/

/-- C3 fails as stated: "open" is not in the code's keyword list, so the
header "Open" — whose lower-cased form does contain "open" — is not
classified Monetary when a sibling header matches a real keyword. -/
theorem c3_counterexample :
    substrL (("open").toList) (lowerL ("Open")) = true ∧
      "Open" ∈ (["Open", "Balance"] : List String) ∧
      "Open" ∉ balanceColsOf ["Open", "Balance"] := by
  decide

/-- C3 (amended): every column whose lower-cased header contains one of
the code's keywords balance, amount, value, amt, debit, credit, total is
classified Monetary; "open" is not among the keywords, so a header
containing only "open" becomes Monetary only through the last-column
fallback. -/
theorem c3_keyword_monetary (hs : List String) (c : String) (hc : c ∈ hs)
    (hm : moneyMatch c = true) : c ∈ balanceColsOf hs := by
  have hmem : c ∈ hs.filter moneyMatch := List.mem_filter.mpr ⟨hc, hm⟩
  have hne : hs.filter moneyMatch ≠ [] := by
    intro hnil
    rw [hnil] at hmem
    exact absurd hmem (List.not_mem_nil c)
  unfold balanceColsOf
  rw [if_neg (by simpa [List.isEmpty_iff] using hne)]
  exact hmem

/-- Witness for C3 (amended): the spec's own example header. -/
theorem c3_keyword_monetary_witness : "Balance Due" ∈ balanceColsOf ["Balance Due"] :=
  c3_keyword_monetary ["Balance Due"] ("Balance Due") (by decide) (by decide)

/-! ### Claim C4: the date fallback -/

/-- C4 fails as stated: the header "Doc Dat e" — whose space-stripped
lower-cased form contains "docdate" while its raw lower-cased form does
not contain "date" — is not classified Date: the code's fallback strips
no spaces and re-requires the substring "date", so with no "date" header
present it selects nothing. -/
theorem c4_counterexample :
    substrL (("docdate").toList) (specStripSpaces (lowerL ("Doc Dat e"))) = true ∧
      dateMatch ("X") = false ∧ dateMatch ("Doc Dat e") = false ∧
      dateColsOf ["X", "Doc Dat e"] = [] := by
  decide

/-- C4 (amended): the fallback branch — headers containing "doc" or
"invoice" and also "date", with no space-stripping — only runs when no
header contains "date", and then it can never match either, so
date-column selection always equals the plain "date" substring filter
and the fallback never adds a column. -/
theorem c4_fallback_inert (hs : List String) : dateColsOf hs = hs.filter dateMatch := by
  unfold dateColsOf
  by_cases h : (hs.filter dateMatch).isEmpty
  · rw [if_pos h]
    have hnil : hs.filter dateMatch = [] := List.isEmpty_iff.mp h
    rw [hnil]
    apply List.filter_eq_nil_iff.mpr
    intro c hc
    simp only [Bool.and_eq_true, not_and]
    intro _ hdm
    have hmem : c ∈ hs.filter dateMatch := List.mem_filter.mpr ⟨hc, hdm⟩
    rw [hnil] at hmem
    exact absurd hmem (List.not_mem_nil c)
  · rw [if_neg h]

/-! ### Claim C5: the last-column monetary fallback -/

/-- C5: for every (post-shift) header list with at least one column in
which no lower-cased header contains a monetary keyword, the Role
Detector classifies exactly one column as Monetary: the last column by
position, so monetary normalization still has a target. -/
theorem c5_last_column_fallback (hs : List String) (hne : hs ≠ [])
    (hnm : hs.filter moneyMatch = []) :
    balanceColsOf hs = [hs.getLast hne] ∧ (balanceColsOf hs).length = 1 := by
  have hb : balanceColsOf hs = [hs.getLast hne] := by
    simp only [balanceColsOf]
    rw [hnm, List.getLast?_eq_getLast hs hne]
    rfl
  exact ⟨hb, by rw [hb]; rfl⟩

/-- Witness for C5: the spec's "Ref#" example plus a second
keyword-free header. -/
theorem c5_last_column_fallback_witness :
    balanceColsOf ["Ref#", "Memo"] = ["Memo"] ∧
      (balanceColsOf ["Ref#", "Memo"]).length = 1 :=
  c5_last_column_fallback ["Ref#", "Memo"] (by decide) (by decide)

/-! ### Claim C6: accounting-negative numeric parsing -/

theorem rhe_intCast (n : ℤ) : rhe ((n : ℚ)) = n := by
  simp only [rhe]
  rw [Int.floor_intCast]
  norm_num

/-- C6: the numeric parser first strips every comma and space character
and then, if the cleaned string is wrapped in parentheses, rewrites it
with a leading minus before conversion: every separator-free
parenthesized unsigned decimal parses to the negation of its inner
value; concretely "(123.45)" parses to −123.45, and "1,234.50" parses to
1234.5, rendered as "1234.50" on export. -/
theorem c6_numeric_parsing :
    (∀ (u : List Char) (q : ℚ), parseUnsignedDec u = some q →
        (∀ c ∈ u, ¬(c = ',' ∨ c = ' ')) →
        to_numeric (Cell.str ⟨'(' :: (u ++ [')'])⟩) = some (-q)) ∧
      to_numeric (Cell.str ("(123.45)")) = some (-((2469 : ℚ) / 20)) ∧
      to_numeric (Cell.str ("1,234.50")) = some ((2469 : ℚ) / 2) ∧
      renderCell (moneyTransform (Cell.str ("1,234.50"))) = "1234.50" := by
  refine ⟨?_, ?_, ?_, ?_⟩
  · intro u q hq hc
    have d1 : List.dropWhile isWS ('(' :: (u ++ [')'])) = '(' :: (u ++ [')']) := by
      rw [List.dropWhile_cons, if_neg (by decide)]
    have d2 : ('(' :: (u ++ [')'])).reverse = ')' :: ('(' :: u).reverse := by
      rw [show ('(' :: (u ++ [')'])) = (('(' :: u) ++ [')']) from rfl, List.reverse_append]
      rfl
    have d3 : List.dropWhile isWS (')' :: ('(' :: u).reverse) = ')' :: ('(' :: u).reverse := by
      rw [List.dropWhile_cons, if_neg (by decide)]
    have h1 : trimL ('(' :: (u ++ [')'])) = '(' :: (u ++ [')']) := by
      unfold trimL
      rw [d1, d2, d3, ← d2, List.reverse_reverse]
    have h2 : stripSep ('(' :: (u ++ [')'])) = '(' :: (u ++ [')']) := by
      apply List.filter_eq_self.mpr
      intro c hcm
      rcases List.mem_cons.mp hcm with rfl | hcm'
      · decide
      · rcases List.mem_append.mp hcm' with hcu | hcp
        · have hx := hc c hcu
          have hx1 : c ≠ ',' := fun hcc => hx (Or.inl hcc)
          have hx2 : c ≠ ' ' := fun hcc => hx (Or.inr hcc)
          simp [hx1, hx2]
        · rcases List.mem_singleton.mp hcp with rfl
          decide
    have h3 : parenFix ('(' :: (u ++ [')'])) = '-' :: u := by
      unfold parenFix
      rw [if_pos ⟨rfl, by
        rw [show ('(' :: (u ++ [')'])) = (('(' :: u) ++ [')']) from rfl]
        exact List.getLast?_concat _⟩]
      rw [show (('(' :: (u ++ [')'])).drop 1) = u ++ [')'] from rfl, List.dropLast_concat]
    have hcs : String.toList ⟨'(' :: (u ++ [')'])⟩ = '(' :: (u ++ [')']) := rfl
    have hne2 : ¬(Cell.str ⟨'(' :: (u ++ [')'])⟩ = Cell.null) := by simp
    have htr : ¬(trimL (cellStr (Cell.str ⟨'(' :: (u ++ [')'])⟩)).toList = []) := by
      show ¬(trimL ('(' :: (u ++ [')'])) = [])
      rw [h1]
      simp
    have hval : to_numeric (Cell.str ⟨'(' :: (u ++ [')'])⟩)
        = pyFloatL (parenFix (stripSep ('(' :: (u ++ [')'])))) := by
      unfold to_numeric
      rw [if_neg hne2]
      exact if_neg htr
    rw [hval, h2, h3]
    show (parseUnsignedDec u).map (fun x => -x) = some (-q)
    rw [hq]
    rfl
  · rw [show to_numeric (Cell.str ("(123.45)"))
      = some (-(((digitsVal ['1', '2', '3'] : ℕ) : ℚ)
          + ((digitsVal ['4', '5'] : ℕ) : ℚ) / (10 : ℚ) ^ (['4', '5'] : List Char).length)) from rfl]
    rw [show digitsVal ['1', '2', '3'] = 123 from rfl, show digitsVal ['4', '5'] = 45 from rfl]
    norm_num
  · rw [show to_numeric (Cell.str ("1,234.50"))
      = some (((digitsVal ['1', '2', '3', '4'] : ℕ) : ℚ)
          + ((digitsVal ['5', '0'] : ℕ) : ℚ) / (10 : ℚ) ^ (['5', '0'] : List Char).length) from rfl]
    rw [show digitsVal ['1', '2', '3', '4'] = 1234 from rfl, show digitsVal ['5', '0'] = 50 from rfl]
    norm_num
  · have hto : to_numeric (Cell.str ("1,234.50")) = some ((2469 : ℚ) / 2) := by
      rw [show to_numeric (Cell.str ("1,234.50"))
        = some (((digitsVal ['1', '2', '3', '4'] : ℕ) : ℚ)
            + ((digitsVal ['5', '0'] : ℕ) : ℚ) / (10 : ℚ) ^ (['5', '0'] : List Char).length) from rfl]
      rw [show digitsVal ['1', '2', '3', '4'] = 1234 from rfl, show digitsVal ['5', '0'] = 50 from rfl]
      norm_num
    have hmt : moneyTransform (Cell.str ("1,234.50")) = Cell.num (round2 ((2469 : ℚ) / 2)) := by
      unfold moneyTransform
      rw [hto]
    have hr : round2 ((2469 : ℚ) / 2) = ((123450 : ℤ) : ℚ) / 100 := by
      unfold round2
      rw [show ((2469 : ℚ) / 2) * 100 = ((123450 : ℤ) : ℚ) from by norm_num, rhe_intCast]
    have hf : fmt2 (((123450 : ℤ) : ℚ) / 100) = "1234.50" := by
      simp only [fmt2]
      rw [show (((123450 : ℤ) : ℚ) / 100) * 100 = ((123450 : ℤ) : ℚ) from by norm_num, rhe_intCast]
      decide
    rw [hmt, hr]
    show fmt2 (((123450 : ℤ) : ℚ) / 100) = "1234.50"
    exact hf

/-- Witness for C6 at the separator-free unsigned decimal "7". -/
theorem c6_numeric_parsing_witness :
    to_numeric (Cell.str ⟨'(' :: ((("7").toList) ++ [')'])⟩) = some (-(7 : ℚ)) :=
  c6_numeric_parsing.1 (("7").toList) 7
    (by rw [show parseUnsignedDec (("7").toList) = some ((digitsVal ['7'] : ℕ) : ℚ) from rfl]
        rw [show digitsVal ['7'] = 7 from rfl]
        simp)
    (by decide)

/-! ### Claim C7: blank monetary cells -/

/-- C7: in a Monetary column, a cell that is null, the empty string, or
pure whitespace parses to null and is rendered in the exported CSV as an
empty cell, never as "0.00". -/
theorem c7_blank_cells (x : Cell) (h : x = Cell.null ∨ trimL (cellStr x).toList = []) :
    to_numeric x = none ∧ moneyTransform x = Cell.null ∧
      renderCell (moneyTransform x) = "" ∧ renderCell (moneyTransform x) ≠ "0.00" := by
  have hn : to_numeric x = none := by
    rcases h with rfl | hb
    · rfl
    · unfold to_numeric
      by_cases hx : x = Cell.null
      · rw [if_pos hx]
      · rw [if_neg hx]
        exact if_pos hb
  have hm : moneyTransform x = Cell.null := by
    unfold moneyTransform
    rw [hn]
  refine ⟨hn, hm, by rw [hm]; rfl, by rw [hm]; decide⟩

/-- Witness for C7 at a whitespace-only cell. -/
theorem c7_blank_cells_witness :
    to_numeric (Cell.str ("  ")) = none ∧ moneyTransform (Cell.str ("  ")) = Cell.null ∧
      renderCell (moneyTransform (Cell.str ("  "))) = "" ∧
      renderCell (moneyTransform (Cell.str ("  "))) ≠ "0.00" :=
  c7_blank_cells (Cell.str ("  ")) (Or.inr (by decide))

/-! ### Remaining witnesses -/

/-- Witness for C8 at `mixedDateTable`: the date column maps cell-wise,
the bad cell renders empty, the sibling renders normally. -/
theorem c8_date_cellwise_witness :
    (∃ c0, (dropFirstByLabel mixedDateTable)[0]? = some c0 ∧
        c0.name = (⟨"InvoiceDate", [Cell.str (""), Cell.str ("15/09/2025")]⟩ : Column).name ∧
        (⟨"InvoiceDate", [Cell.str (""), Cell.str ("15/09/2025")]⟩ : Column).cells
          = c0.cells.map dateTransform) ∧
      dateTransform (Cell.str ("not-a-date")) = Cell.str ("") ∧
      dateTransform (Cell.str ("15/09/2025")) = Cell.str ("15/09/2025") ∧
      (∀ u : Table, 2 ≤ u.length → ∃ o, process u = .ok o) :=
  c8_date_cellwise mixedDateTable
    [⟨"InvoiceDate", [Cell.str (""), Cell.str ("15/09/2025")]⟩,
     ⟨"Balance", [Cell.null, Cell.null]⟩]
    rfl 0 ⟨"InvoiceDate", [Cell.str (""), Cell.str ("15/09/2025")]⟩ rfl (by decide) (by decide)

/-- Witness for C9 at 15 September 2025. -/
theorem c9_date_roundtrip_witness :
    parseWithFormat '/' FOrd.dmy (formatDMY ⟨2025, 9, 15⟩).toList = some ⟨2025, 9, 15⟩ :=
  c9_date_roundtrip ⟨2025, 9, 15⟩ (by decide)

/-- Witness for C10 at `noteTable`: the unclassified "Note" column is
returned untouched. -/
theorem c10_unclassified_untouched_witness :
    (dropFirstByLabel noteTable)[1]? = some ⟨"Note", [Cell.str ("hi")]⟩ :=
  c10_unclassified_untouched noteTable
    [⟨"InvoiceDate", [Cell.str ("01/02/2025")]⟩, ⟨"Note", [Cell.str ("hi")]⟩,
     ⟨"Balance", [Cell.null]⟩]
    rfl 1 ⟨"Note", [Cell.str ("hi")]⟩ rfl (by decide) (by decide)
